import Mathlib

/-!
Verification of the market-data collection loop of `cryptoTracker.py`.

The embedding mirrors `main()` (lines 139-183 of the source):

* startup provisioning: for each exchange, for each `(product, kibana_index)`
  pair, `if not es.indices.exists(index): es.indices.create(index)`;
* the infinite loop: `sleep(MARKET_REFRESH_RATE)`, then a single `try` block
  around the whole per-exchange `for` loop — `record_ticker`, then per product
  `get_price`, `db.session.add`, `db.session.commit`, log, and
  `if price > PRICE_THRESHOLD: send_email_alert(...)` — with
  `except Exception: log; sleep(10)` around the entire cycle;
* the SQLAlchemy session is modelled by a pending list (`session.add`) and a
  committed list (the `market_data.db` contents); `commit` flushes all pending
  rows on success; on failure SQLAlchemy rolls the transaction back
  internally, expunging the pending rows, and the session then requires an
  explicit `rollback()` that the source never calls, so on a realizable
  run every commit after a first failure also fails (PendingRollbackError);
* prices are rationals (the Python floats of the claims, e.g. `50000.01`, are
  exactly representable); time is a `Nat` clock advanced only by the two
  `sleep` calls.

External effects (the Elasticsearch connection, the exchanges' HTTP calls,
the database commit) are parameters: each exchange's `record_ticker` and
`get_price` results per cycle, and the success of each commit attempt, are
supplied as oracle functions, so that "exchange A's fetch always fails" and
similar hypotheses of the spec are expressible.
-/

namespace CryptoTracker

/-- One row of the `MarketData` model: `(exchange, product, price, timestamp)`.
`observedAt` is the model clock value when the row is constructed. -/
structure Observation where
  exchange : String
  product : String
  price : ℚ
  observedAt : ℕ
deriving Repr, DecidableEq

/-- The ephemeral alert value passed to `send_email_alert` when
`price > PRICE_THRESHOLD`. -/
structure AlertEvent where
  product : String
  exchange : String
  price : ℚ
  threshold : ℚ
deriving Repr, DecidableEq

/-- An exchange client (one of the eight `*_Market()` objects): a name, a
mapping of products to kibana index ids, and the two effectful methods,
given as oracles indexed by the cycle number. `record_ticker` returns
`Except` because the call can raise; `get_price` likewise. -/
structure ExchangeClient where
  exchange : String
  products : List (String × String)
  record_ticker : ℕ → Except String Unit
  get_price : ℕ → String → Except String ℚ

/-- Environment oracle: `commitOk k` is the observable outcome of the
`k`-th `db.session.commit()` call of the run — `true` when it returns,
`false` when it raises (a database error, or the PendingRollbackError that
SQLAlchemy raises after an earlier failure until an explicit `rollback()`
the source never performs). Because of that cascade, an oracle describing a
real run of this program satisfies: a successful call implies all earlier
calls succeeded; theorems about recovery behaviour take this as an explicit
hypothesis. -/
structure Env where
  commitOk : ℕ → Bool

/-- Static configuration: `PRICE_THRESHOLD`, `MARKET_REFRESH_RATE`, and the
`exchanges` list built at the top of `main()`. -/
structure Config where
  threshold : ℚ
  refresh : ℕ
  exchanges : List ExchangeClient

/-- Mutable state of the loop: the committed `MarketData` rows (the
PriceStore), the session's pending rows, the alerts sent so far, a global
counter of commit attempts (feeding `Env.commitOk`), ghost counters of
fetch attempts and successes, and the clock. -/
structure LoopState where
  committed : List Observation
  pending : List Observation
  alerts : List AlertEvent
  commitCount : ℕ
  attempted : ℕ
  fetchSuccesses : ℕ
  clock : ℕ
deriving Repr, DecidableEq

/-- The state at `db.create_all()`: everything empty, clock 0. -/
def initState : LoopState :=
  { committed := [], pending := [], alerts := [], commitCount := 0,
    attempted := 0, fetchSuccesses := 0, clock := 0 }

/-- `MarketData(exchange=..., product=..., price=...)` — timestamp defaults
to the current time. -/
def mkObservation (ex : ExchangeClient) (product : String) (price : ℚ)
    (now : ℕ) : Observation :=
  { exchange := ex.exchange, product := product, price := price,
    observedAt := now }

/-- `db.session.add(new_data)`: the row becomes pending in the session. -/
def sessionAdd (st : LoopState) (o : Observation) : LoopState :=
  { st with pending := st.pending ++ [o] }

/-- `db.session.commit()`: consumes one commit-oracle answer. On success all
pending rows are flushed to the database. On failure the call raises and
SQLAlchemy rolls the underlying transaction back, expunging the pending
rows: nothing reaches the database and the session does not retain the
rows for a later flush. The returned `Bool` is `true` iff the commit
succeeded. -/
def sessionCommit (env : Env) (st : LoopState) : LoopState × Bool :=
  let ok := env.commitOk st.commitCount
  let st := { st with commitCount := st.commitCount + 1 }
  if ok then
    ({ st with committed := st.committed ++ st.pending, pending := [] }, true)
  else
    ({ st with pending := [] }, false)

/-- The body of `for product in exchange.products` for one product:
`get_price`, build the row, `add`, `commit`, then the threshold check.
The `Bool` of the result is `true` when an exception was raised (the state
at that moment is kept, since all state is global). Matches source lines
166-177. -/
def processProduct (env : Env) (cfg : Config) (c : ℕ) (ex : ExchangeClient)
    (product : String) (st : LoopState) : LoopState × Bool :=
  match ex.get_price c product with
  | .error _ => ({ st with attempted := st.attempted + 1 }, true)
  | .ok price =>
    let st := { st with attempted := st.attempted + 1,
                        fetchSuccesses := st.fetchSuccesses + 1 }
    let st := sessionAdd st (mkObservation ex product price st.clock)
    match sessionCommit env st with
    | (st, false) => (st, true)
    | (st, true) =>
      let st :=
        if cfg.threshold < price then
          { st with alerts := st.alerts ++
              [{ product := product, exchange := ex.exchange, price := price,
                 threshold := cfg.threshold }] }
        else st
      (st, false)

/-- `for product in exchange.products: ...` — an exception at one product
aborts the rest of the list. -/
def processProducts (env : Env) (cfg : Config) (c : ℕ) (ex : ExchangeClient) :
    List String → LoopState → LoopState × Bool
  | [], st => (st, false)
  | p :: ps, st =>
    match processProduct env cfg c ex p st with
    | (st, true) => (st, true)
    | (st, false) => processProducts env cfg c ex ps st

/-- One exchange inside the cycle: `exchange.record_ticker(es)` followed by
the product loop. An exception in `record_ticker` aborts here. Source
lines 164-177. -/
def runExchange (env : Env) (cfg : Config) (c : ℕ) (ex : ExchangeClient)
    (st : LoopState) : LoopState × Bool :=
  match ex.record_ticker c with
  | .error _ => (st, true)
  | .ok _ => processProducts env cfg c ex (ex.products.map Prod.fst) st

/-- `for exchange in exchanges: ...` — an exception at one exchange aborts
the rest of the cycle (the `try` is around the whole `for` loop). -/
def runExchanges (env : Env) (cfg : Config) (c : ℕ) :
    List ExchangeClient → LoopState → LoopState × Bool
  | [], st => (st, false)
  | ex :: exs, st =>
    match runExchange env cfg c ex st with
    | (st, true) => (st, true)
    | (st, false) => runExchanges env cfg c exs st

/-- The collection work of cycle `c`, i.e. the contents of the `try` block,
entered after the initial `sleep`. -/
def cycleBody (env : Env) (cfg : Config) (c : ℕ) (st : LoopState) :
    LoopState × Bool :=
  runExchanges env cfg c cfg.exchanges st

/-- Whether cycle `c` started from `st` raises an exception into the
catch-all `except` handler. -/
def cycleAborted (env : Env) (cfg : Config) (c : ℕ) (st : LoopState) : Bool :=
  (cycleBody env cfg c { st with clock := st.clock + cfg.refresh }).2

/-- One iteration of `while True`: `sleep(MARKET_REFRESH_RATE)`, the `try`
block, and on exception `logging.error` plus `sleep(10)`. No exception
escapes this function. Source lines 160-180. -/
def runCycle (env : Env) (cfg : Config) (c : ℕ) (st : LoopState) : LoopState :=
  let st := { st with clock := st.clock + cfg.refresh }
  match cycleBody env cfg c st with
  | (st, false) => st
  | (st, true) => { st with clock := st.clock + 10 }

/-- `n` consecutive iterations, the first one being cycle `c`. -/
def runCyclesFrom (env : Env) (cfg : Config) (c : ℕ) :
    ℕ → LoopState → LoopState
  | 0, st => st
  | n + 1, st => runCyclesFrom env cfg (c + 1) n (runCycle env cfg c st)

/-- The first `n` cycles of the loop. -/
def runCycles (env : Env) (cfg : Config) (n : ℕ) (st : LoopState) :
    LoopState :=
  runCyclesFrom env cfg 0 n st

/-- `es.indices.exists(index=idx)` over the model Elasticsearch state, a
list of existing index ids. -/
def indexExists (s : List String) (idx : String) : Bool :=
  s.contains idx

/-- `es.indices.create(index=idx)`: fails with a connectivity error when the
oracle `canCreate` denies it, fails with `resource_already_exists_exception`
when the index exists, otherwise adds the index. -/
def createIndex (canCreate : String → Bool) (s : List String) (idx : String) :
    Except String (List String) :=
  if canCreate idx then
    if s.contains idx then .error "resource_already_exists_exception"
    else .ok (idx :: s)
  else .error "ConnectionError"

/-- Source lines 154-155: `if not es.indices.exists(index): es.indices.create(index)`.
This is the IndexProvisioner `ensure` operation of the spec. -/
def ensureIdx (canCreate : String → Bool) (s : List String) (idx : String) :
    Except String (List String) :=
  if indexExists s idx then .ok s else createIndex canCreate s idx

/-- `for product, kibana_index in exchange.products.items(): ensure` —
an exception propagates (provisioning is outside any `try`). -/
def provisionProducts (canCreate : String → Bool) :
    List (String × String) → List String → Except String (List String)
  | [], s => .ok s
  | (_, idx) :: rest, s =>
    match ensureIdx canCreate s idx with
    | .error e => .error e
    | .ok s => provisionProducts canCreate rest s

/-- The startup provisioning loop over all exchanges, lines 151-156. -/
def provisionAll (canCreate : String → Bool) :
    List ExchangeClient → List String → Except String (List String)
  | [], s => .ok s
  | ex :: exs, s =>
    match provisionProducts canCreate ex.products s with
    | .error e => .error e
    | .ok s => provisionAll canCreate exs s

/-- `main()` truncated to `n` loop iterations: provision all indices, then
run the loop; a provisioning exception propagates out of `main` and the
loop is never entered. -/
def runMain (canCreate : String → Bool) (env : Env) (cfg : Config) (n : ℕ) :
    Except String LoopState :=
  match provisionAll canCreate cfg.exchanges [] with
  | .error e => .error e
  | .ok _ => .ok (runCycles env cfg n initState)

/-- The idle time between the end of cycle `c`'s collection work and the
start of cycle `c+1`'s collection work: the optional error cooldown plus the
next cycle's initial `sleep(MARKET_REFRESH_RATE)`. -/
def interCyclePause (env : Env) (cfg : Config) (c : ℕ) (st : LoopState) : ℕ :=
  ((runCycle env cfg c st).clock + cfg.refresh) - (st.clock + cfg.refresh)

/-! Concrete exchange clients, environments and configurations for the
scenario-shaped properties of the spec. -/

/-- A healthy exchange client: one product, constant price, both effectful
calls always succeed. -/
def exOk (name p : String) (price : ℚ) : ExchangeClient :=
  { exchange := name, products := [(p, "idx_" ++ p)],
    record_ticker := fun _ => .ok (),
    get_price := fun _ _ => .ok price }

/-- An exchange whose `get_price` always raises. -/
def exFetchFail (name p : String) : ExchangeClient :=
  { exchange := name, products := [(p, "idx_" ++ p)],
    record_ticker := fun _ => .ok (),
    get_price := fun _ _ => .error "fetch failed" }

/-- An exchange whose `record_ticker` always raises but whose price fetch
would succeed with a price above the default threshold. -/
def exTickerFail : ExchangeClient :=
  { exchange := "T", products := [("PT", "idx_PT")],
    record_ticker := fun _ => .error "es unreachable",
    get_price := fun _ _ => .ok 60000 }

/-- Every commit succeeds. -/
def envAllOk : Env := ⟨fun _ => true⟩

/-- Every commit raises. -/
def envNoCommit : Env := ⟨fun _ => false⟩

/-- The first commit of the run raises, all later ones succeed. -/
def envFirstCommitFails : Env := ⟨fun k => decide (0 < k)⟩

/-- The §8 scenario: threshold 50000, interval 1, two exchanges with one
product each, prices 100 and 60000. -/
def cfg9 : Config :=
  { threshold := 50000, refresh := 1,
    exchanges := [exOk "Exchange1" "P1" 100, exOk "Exchange2" "P2" 60000] }

/-- Failing exchange A registered before healthy exchange B. -/
def cfgAB : Config :=
  { threshold := 50000, refresh := 1,
    exchanges := [exFetchFail "A" "PA", exOk "B" "PB" 100] }

/-- Healthy exchange B registered before failing exchange A. -/
def cfgBA : Config :=
  { threshold := 50000, refresh := 1,
    exchanges := [exOk "B" "PB" 100, exFetchFail "A" "PA"] }

/-- A single exchange whose `record_ticker` always raises. -/
def cfgT : Config :=
  { threshold := 50000, refresh := 1, exchanges := [exTickerFail] }

/-- A single healthy exchange, price 100, below the threshold. -/
def cfgE : Config :=
  { threshold := 50000, refresh := 1, exchanges := [exOk "E" "P" 100] }

/-- A configuration whose only relevant field is the default threshold
50000, for exercising `processProduct` directly. -/
def cfgThr : Config :=
  { threshold := 50000, refresh := 1, exchanges := [] }

/-- The accounting invariant behind the observation-accounting property:
committed rows plus rows currently pending in the session never exceed the
successful fetches (a failed commit expunges its rows, so the bound is an
inequality, with equality while no commit has failed), and fetch successes
never exceed fetch attempts. -/
def obsInvariant (st : LoopState) : Prop :=
  st.committed.length + st.pending.length ≤ st.fetchSuccesses ∧
  st.fetchSuccesses ≤ st.attempted

/-! Characterisations of the three possible outcomes of a single product
step, read off the source: fetch raises; fetch succeeds but the commit
raises (the transaction is rolled back, expunging the added row); fetch
and commit both succeed. -/

theorem processProduct_fetch_fail {env : Env} {cfg : Config} {c : ℕ}
    {ex : ExchangeClient} {p : String} {st : LoopState} {e : String}
    (hg : ex.get_price c p = .error e) :
    processProduct env cfg c ex p st =
      ({ st with attempted := st.attempted + 1 }, true) := by
  simp [processProduct, hg]

theorem processProduct_commit_fail {env : Env} {cfg : Config} {c : ℕ}
    {ex : ExchangeClient} {p : String} {st : LoopState} {price : ℚ}
    (hg : ex.get_price c p = .ok price)
    (hc : env.commitOk st.commitCount = false) :
    processProduct env cfg c ex p st =
      ({ st with attempted := st.attempted + 1,
                 fetchSuccesses := st.fetchSuccesses + 1,
                 pending := [],
                 commitCount := st.commitCount + 1 }, true) := by
  simp [processProduct, sessionAdd, sessionCommit, mkObservation, hg, hc]

theorem processProduct_ok {env : Env} {cfg : Config} {c : ℕ}
    {ex : ExchangeClient} {p : String} {st : LoopState} {price : ℚ}
    (hg : ex.get_price c p = .ok price)
    (hc : env.commitOk st.commitCount = true) :
    processProduct env cfg c ex p st =
      ({ st with attempted := st.attempted + 1,
                 fetchSuccesses := st.fetchSuccesses + 1,
                 committed := st.committed ++
                   (st.pending ++ [mkObservation ex p price st.clock]),
                 pending := [],
                 commitCount := st.commitCount + 1,
                 alerts := st.alerts ++
                   (if cfg.threshold < price then
                      [{ product := p, exchange := ex.exchange,
                         price := price, threshold := cfg.threshold }]
                    else []) }, false) := by
  by_cases ht : cfg.threshold < price <;>
    simp [processProduct, sessionAdd, sessionCommit, mkObservation, hg, hc, ht]

/-! The collection work never advances the model clock: only the two `sleep`
calls in `runCycle` do. -/

theorem processProduct_clock (env : Env) (cfg : Config) (c : ℕ)
    (ex : ExchangeClient) (p : String) (st : LoopState) :
    (processProduct env cfg c ex p st).1.clock = st.clock := by
  cases hg : ex.get_price c p with
  | error e => rw [processProduct_fetch_fail hg]
  | ok price =>
    cases hc : env.commitOk st.commitCount with
    | false => rw [processProduct_commit_fail hg hc]
    | true => rw [processProduct_ok hg hc]

theorem processProducts_clock (env : Env) (cfg : Config) (c : ℕ)
    (ex : ExchangeClient) (ps : List String) (st : LoopState) :
    (processProducts env cfg c ex ps st).1.clock = st.clock := by
  induction ps generalizing st with
  | nil => rfl
  | cons p ps ih =>
    have hp := processProduct_clock env cfg c ex p st
    rcases hPP : processProduct env cfg c ex p st with ⟨st', b⟩
    rw [hPP] at hp
    cases b with
    | true => simpa [processProducts, hPP] using hp
    | false =>
      simp only [processProducts, hPP]
      rw [ih st', hp]

theorem runExchange_clock (env : Env) (cfg : Config) (c : ℕ)
    (ex : ExchangeClient) (st : LoopState) :
    (runExchange env cfg c ex st).1.clock = st.clock := by
  cases ht : ex.record_ticker c with
  | error e => simp [runExchange, ht]
  | ok u => simp [runExchange, ht, processProducts_clock]

theorem runExchanges_clock (env : Env) (cfg : Config) (c : ℕ)
    (exs : List ExchangeClient) (st : LoopState) :
    (runExchanges env cfg c exs st).1.clock = st.clock := by
  induction exs generalizing st with
  | nil => rfl
  | cons ex exs ih =>
    have he := runExchange_clock env cfg c ex st
    rcases hE : runExchange env cfg c ex st with ⟨st', b⟩
    rw [hE] at he
    cases b with
    | true => simpa [runExchanges, hE] using he
    | false =>
      simp only [runExchanges, hE]
      rw [ih st', he]

theorem cycleBody_clock (env : Env) (cfg : Config) (c : ℕ) (st : LoopState) :
    (cycleBody env cfg c st).1.clock = st.clock :=
  runExchanges_clock env cfg c cfg.exchanges st

theorem runCycle_clock (env : Env) (cfg : Config) (c : ℕ) (st : LoopState) :
    (runCycle env cfg c st).clock =
      st.clock + cfg.refresh +
        (if cycleAborted env cfg c st then 10 else 0) := by
  have hb := cycleBody_clock env cfg c { st with clock := st.clock + cfg.refresh }
  unfold runCycle cycleAborted
  rcases hB : cycleBody env cfg c { st with clock := st.clock + cfg.refresh }
    with ⟨st', b⟩
  rw [hB] at hb
  cases b <;> simp_all

/-! Preservation of the conservation invariant through every layer of the
loop. -/

theorem processProduct_obsInvariant (env : Env) (cfg : Config) (c : ℕ)
    (ex : ExchangeClient) (p : String) (st : LoopState)
    (h : obsInvariant st) :
    obsInvariant (processProduct env cfg c ex p st).1 := by
  obtain ⟨h1, h2⟩ := h
  cases hg : ex.get_price c p with
  | error e =>
    rw [processProduct_fetch_fail hg]
    simp only [obsInvariant]
    exact ⟨h1, by omega⟩
  | ok price =>
    cases hc : env.commitOk st.commitCount with
    | false =>
      rw [processProduct_commit_fail hg hc]
      simp only [obsInvariant]
      simp only [List.length_append, List.length_cons, List.length_nil]
      omega
    | true =>
      rw [processProduct_ok hg hc]
      simp only [obsInvariant]
      simp only [List.length_append, List.length_cons, List.length_nil]
      omega

theorem processProducts_obsInvariant (env : Env) (cfg : Config) (c : ℕ)
    (ex : ExchangeClient) (ps : List String) (st : LoopState)
    (h : obsInvariant st) :
    obsInvariant (processProducts env cfg c ex ps st).1 := by
  induction ps generalizing st with
  | nil => exact h
  | cons p ps ih =>
    have hp := processProduct_obsInvariant env cfg c ex p st h
    rcases hPP : processProduct env cfg c ex p st with ⟨st', b⟩
    rw [hPP] at hp
    cases b with
    | true => simpa [processProducts, hPP] using hp
    | false =>
      simp only [processProducts, hPP]
      exact ih st' hp

theorem runExchange_obsInvariant (env : Env) (cfg : Config) (c : ℕ)
    (ex : ExchangeClient) (st : LoopState) (h : obsInvariant st) :
    obsInvariant (runExchange env cfg c ex st).1 := by
  cases ht : ex.record_ticker c with
  | error e => simpa [runExchange, ht] using h
  | ok u =>
    simp only [runExchange, ht]
    exact processProducts_obsInvariant env cfg c ex (ex.products.map Prod.fst) st h

theorem runExchanges_obsInvariant (env : Env) (cfg : Config) (c : ℕ)
    (exs : List ExchangeClient) (st : LoopState) (h : obsInvariant st) :
    obsInvariant (runExchanges env cfg c exs st).1 := by
  induction exs generalizing st with
  | nil => exact h
  | cons ex exs ih =>
    have he := runExchange_obsInvariant env cfg c ex st h
    rcases hE : runExchange env cfg c ex st with ⟨st', b⟩
    rw [hE] at he
    cases b with
    | true => simpa [runExchanges, hE] using he
    | false =>
      simp only [runExchanges, hE]
      exact ih st' he

theorem obsInvariant_clockUpdate {st : LoopState} (h : obsInvariant st)
    (n : ℕ) : obsInvariant { st with clock := n } := h

theorem runCycle_obsInvariant (env : Env) (cfg : Config) (c : ℕ)
    (st : LoopState) (h : obsInvariant st) :
    obsInvariant (runCycle env cfg c st) := by
  have hb := runExchanges_obsInvariant env cfg c cfg.exchanges
    { st with clock := st.clock + cfg.refresh }
    (obsInvariant_clockUpdate h (st.clock + cfg.refresh))
  rcases hB : runExchanges env cfg c cfg.exchanges
      { st with clock := st.clock + cfg.refresh } with ⟨st', b⟩
  rw [hB] at hb
  cases b with
  | true => simpa only [runCycle, cycleBody, hB, obsInvariant] using hb
  | false => simpa only [runCycle, cycleBody, hB, obsInvariant] using hb

theorem runCyclesFrom_obsInvariant (env : Env) (cfg : Config) (c n : ℕ)
    (st : LoopState) (h : obsInvariant st) :
    obsInvariant (runCyclesFrom env cfg c n st) := by
  induction n generalizing c st with
  | zero => exact h
  | succ n ih =>
    exact ih (c + 1) (runCycle env cfg c st) (runCycle_obsInvariant env cfg c st h)

/-! When every commit succeeds the session never retains a pending row and
the accounting is exact: committed rows equal successful fetches. -/

theorem processProduct_allOk (env : Env) (cfg : Config) (c : ℕ)
    (ex : ExchangeClient) (p : String) (st : LoopState)
    (hok : ∀ k, env.commitOk k = true)
    (h : st.pending = [] ∧ st.committed.length = st.fetchSuccesses) :
    (processProduct env cfg c ex p st).1.pending = [] ∧
    (processProduct env cfg c ex p st).1.committed.length =
      (processProduct env cfg c ex p st).1.fetchSuccesses := by
  obtain ⟨hp, hcl⟩ := h
  cases hg : ex.get_price c p with
  | error e => rw [processProduct_fetch_fail hg]; exact ⟨hp, hcl⟩
  | ok price =>
    rw [processProduct_ok hg (hok st.commitCount)]
    refine ⟨rfl, ?_⟩
    show (st.committed ++ (st.pending ++ [mkObservation ex p price st.clock])).length
        = st.fetchSuccesses + 1
    simp only [hp, List.length_append, List.length_cons, List.length_nil]
    omega

theorem processProducts_allOk (env : Env) (cfg : Config) (c : ℕ)
    (ex : ExchangeClient) (ps : List String) (st : LoopState)
    (hok : ∀ k, env.commitOk k = true)
    (h : st.pending = [] ∧ st.committed.length = st.fetchSuccesses) :
    (processProducts env cfg c ex ps st).1.pending = [] ∧
    (processProducts env cfg c ex ps st).1.committed.length =
      (processProducts env cfg c ex ps st).1.fetchSuccesses := by
  induction ps generalizing st with
  | nil => exact h
  | cons p ps ih =>
    have hp := processProduct_allOk env cfg c ex p st hok h
    rcases hPP : processProduct env cfg c ex p st with ⟨st', b⟩
    rw [hPP] at hp
    cases b with
    | true => simpa [processProducts, hPP] using hp
    | false =>
      simp only [processProducts, hPP]
      exact ih st' hp

theorem runExchange_allOk (env : Env) (cfg : Config) (c : ℕ)
    (ex : ExchangeClient) (st : LoopState)
    (hok : ∀ k, env.commitOk k = true)
    (h : st.pending = [] ∧ st.committed.length = st.fetchSuccesses) :
    (runExchange env cfg c ex st).1.pending = [] ∧
    (runExchange env cfg c ex st).1.committed.length =
      (runExchange env cfg c ex st).1.fetchSuccesses := by
  cases ht : ex.record_ticker c with
  | error e => simpa [runExchange, ht] using h
  | ok u =>
    simp only [runExchange, ht]
    exact processProducts_allOk env cfg c ex (ex.products.map Prod.fst) st hok h

theorem runExchanges_allOk (env : Env) (cfg : Config) (c : ℕ)
    (exs : List ExchangeClient) (st : LoopState)
    (hok : ∀ k, env.commitOk k = true)
    (h : st.pending = [] ∧ st.committed.length = st.fetchSuccesses) :
    (runExchanges env cfg c exs st).1.pending = [] ∧
    (runExchanges env cfg c exs st).1.committed.length =
      (runExchanges env cfg c exs st).1.fetchSuccesses := by
  induction exs generalizing st with
  | nil => exact h
  | cons ex exs ih =>
    have he := runExchange_allOk env cfg c ex st hok h
    rcases hE : runExchange env cfg c ex st with ⟨st', b⟩
    rw [hE] at he
    cases b with
    | true => simpa [runExchanges, hE] using he
    | false =>
      simp only [runExchanges, hE]
      exact ih st' he

theorem runCycle_allOk (env : Env) (cfg : Config) (c : ℕ)
    (st : LoopState) (hok : ∀ k, env.commitOk k = true)
    (h : st.pending = [] ∧ st.committed.length = st.fetchSuccesses) :
    (runCycle env cfg c st).pending = [] ∧
    (runCycle env cfg c st).committed.length =
      (runCycle env cfg c st).fetchSuccesses := by
  have hb := runExchanges_allOk env cfg c cfg.exchanges
    { st with clock := st.clock + cfg.refresh } hok h
  rcases hB : runExchanges env cfg c cfg.exchanges
      { st with clock := st.clock + cfg.refresh } with ⟨st', b⟩
  rw [hB] at hb
  cases b with
  | true => simpa only [runCycle, cycleBody, hB] using hb
  | false => simpa only [runCycle, cycleBody, hB] using hb

theorem runCyclesFrom_allOk (env : Env) (cfg : Config) (c n : ℕ)
    (st : LoopState) (hok : ∀ k, env.commitOk k = true)
    (h : st.pending = [] ∧ st.committed.length = st.fetchSuccesses) :
    (runCyclesFrom env cfg c n st).pending = [] ∧
    (runCyclesFrom env cfg c n st).committed.length =
      (runCyclesFrom env cfg c n st).fetchSuccesses := by
  induction n generalizing c st with
  | zero => exact h
  | succ n ih =>
    exact ih (c + 1) (runCycle env cfg c st) (runCycle_allOk env cfg c st hok h)

/-! After a first commit failure the source never calls rollback, so every
later commit raises as well; under an all-commits-fail oracle the database
contents never change. -/

theorem processProduct_committed_const (env : Env) (cfg : Config) (c : ℕ)
    (ex : ExchangeClient) (p : String) (st : LoopState)
    (hall : ∀ k, env.commitOk k = false) :
    (processProduct env cfg c ex p st).1.committed = st.committed := by
  cases hg : ex.get_price c p with
  | error e => rw [processProduct_fetch_fail hg]
  | ok price => rw [processProduct_commit_fail hg (hall st.commitCount)]

theorem processProducts_committed_const (env : Env) (cfg : Config) (c : ℕ)
    (ex : ExchangeClient) (ps : List String) (st : LoopState)
    (hall : ∀ k, env.commitOk k = false) :
    (processProducts env cfg c ex ps st).1.committed = st.committed := by
  induction ps generalizing st with
  | nil => rfl
  | cons p ps ih =>
    have hp := processProduct_committed_const env cfg c ex p st hall
    rcases hPP : processProduct env cfg c ex p st with ⟨st', b⟩
    rw [hPP] at hp
    cases b with
    | true => simpa [processProducts, hPP] using hp
    | false =>
      simp only [processProducts, hPP]
      rw [ih st', hp]

theorem runExchange_committed_const (env : Env) (cfg : Config) (c : ℕ)
    (ex : ExchangeClient) (st : LoopState)
    (hall : ∀ k, env.commitOk k = false) :
    (runExchange env cfg c ex st).1.committed = st.committed := by
  cases ht : ex.record_ticker c with
  | error e => simp [runExchange, ht]
  | ok u =>
    simp only [runExchange, ht]
    exact processProducts_committed_const env cfg c ex (ex.products.map Prod.fst) st hall

theorem runExchanges_committed_const (env : Env) (cfg : Config) (c : ℕ)
    (exs : List ExchangeClient) (st : LoopState)
    (hall : ∀ k, env.commitOk k = false) :
    (runExchanges env cfg c exs st).1.committed = st.committed := by
  induction exs generalizing st with
  | nil => rfl
  | cons ex exs ih =>
    have he := runExchange_committed_const env cfg c ex st hall
    rcases hE : runExchange env cfg c ex st with ⟨st', b⟩
    rw [hE] at he
    cases b with
    | true => simpa [runExchanges, hE] using he
    | false =>
      simp only [runExchanges, hE]
      rw [ih st', he]

theorem runCycle_committed_const (env : Env) (cfg : Config) (c : ℕ)
    (st : LoopState) (hall : ∀ k, env.commitOk k = false) :
    (runCycle env cfg c st).committed = st.committed := by
  have hb := runExchanges_committed_const env cfg c cfg.exchanges
    { st with clock := st.clock + cfg.refresh } hall
  rcases hB : runExchanges env cfg c cfg.exchanges
      { st with clock := st.clock + cfg.refresh } with ⟨st', b⟩
  rw [hB] at hb
  cases b with
  | true => simpa only [runCycle, cycleBody, hB] using hb
  | false => simpa only [runCycle, cycleBody, hB] using hb

theorem runCyclesFrom_committed_const (env : Env) (cfg : Config) (c n : ℕ)
    (st : LoopState) (hall : ∀ k, env.commitOk k = false) :
    (runCyclesFrom env cfg c n st).committed = st.committed := by
  induction n generalizing c st with
  | zero => rfl
  | succ n ih =>
    exact (ih (c + 1) (runCycle env cfg c st)).trans
      (runCycle_committed_const env cfg c st hall)

/-! Closed-form behaviour of a whole cycle for the two isolation-scenario
configurations. Both follow by pure computation of the loop body. -/

theorem runCycle_cfgAB (c : ℕ) (st : LoopState) :
    runCycle envAllOk cfgAB c st =
      { st with attempted := st.attempted + 1,
                clock := st.clock + 1 + 10 } := rfl

theorem runCycle_cfgBA (c : ℕ) (st : LoopState) :
    runCycle envAllOk cfgBA c st =
      { st with
        committed := st.committed ++ (st.pending ++
          [{ exchange := "B", product := "PB", price := 100,
             observedAt := st.clock + 1 }]),
        pending := [],
        commitCount := st.commitCount + 1,
        attempted := st.attempted + 2,
        fetchSuccesses := st.fetchSuccesses + 1,
        clock := st.clock + 1 + 10 } := rfl

theorem runCyclesFrom_cfgAB (n : ℕ) : ∀ c st,
    (runCyclesFrom envAllOk cfgAB c n st).committed = st.committed ∧
    (runCyclesFrom envAllOk cfgAB c n st).clock = st.clock + n * 11 := by
  induction n with
  | zero => intro c st; exact ⟨rfl, by simp [runCyclesFrom]⟩
  | succ n ih =>
    intro c st
    simp only [runCyclesFrom, runCycle_cfgAB]
    obtain ⟨h1, h2⟩ := ih (c + 1)
      { st with attempted := st.attempted + 1, clock := st.clock + 1 + 10 }
    refine ⟨h1, ?_⟩
    rw [h2]
    dsimp only
    omega

theorem runCyclesFrom_cfgBA (n : ℕ) : ∀ c st, st.pending = [] →
    (runCyclesFrom envAllOk cfgBA c n st).committed.map Observation.exchange
      = st.committed.map Observation.exchange ++ List.replicate n "B" ∧
    (runCyclesFrom envAllOk cfgBA c n st).pending = [] := by
  induction n with
  | zero => intro c st h; exact ⟨by simp [runCyclesFrom], h⟩
  | succ n ih =>
    intro c st h
    simp only [runCyclesFrom, runCycle_cfgBA]
    obtain ⟨h1, h2⟩ := ih (c + 1)
      { st with
        committed := st.committed ++ (st.pending ++
          [{ exchange := "B", product := "PB", price := 100,
             observedAt := st.clock + 1 }]),
        pending := [],
        commitCount := st.commitCount + 1,
        attempted := st.attempted + 2,
        fetchSuccesses := st.fetchSuccesses + 1,
        clock := st.clock + 1 + 10 } rfl
    refine ⟨?_, h2⟩
    rw [h1]
    dsimp only
    rw [h]
    simp [List.replicate_succ]

/-! The claims. -/

/-- C1 (counterexample): with failing exchange A registered before healthy
exchange B (one product each), the claim predicts that after 1 cycle the
store holds exactly 1 observation, all from B. In the code the fetch error
of A is caught only by the cycle-level handler, so B is never reached: the
store is empty. -/
theorem C1_counterexample :
    (runCycles envAllOk cfgAB 1 initState).committed = [] ∧
    (runCycles envAllOk cfgAB 1 initState).committed.length ≠ 1 := by
  decide

/-- C1 (amended): an error raised while processing one exchange is caught at
the cycle boundary, not at the exchange boundary, so it aborts the rest of
that cycle; no exception escapes the loop and later cycles still run. With
failing A before B the store stays empty forever (B is shadowed every
cycle) while the loop keeps running (the clock advances by refresh
1 + cooldown 10 each cycle); with B before A the store holds exactly
N x 1 observations after N cycles, all from B and none from A. -/
theorem C1_cycle_boundary_isolation (n : ℕ) :
    (runCycles envAllOk cfgAB n initState).committed = [] ∧
    (runCycles envAllOk cfgAB n initState).clock = n * 11 ∧
    (runCycles envAllOk cfgBA n initState).committed.map Observation.exchange
      = List.replicate n "B" := by
  obtain ⟨h1, h2⟩ := runCyclesFrom_cfgAB n 0 initState
  obtain ⟨h3, _⟩ := runCyclesFrom_cfgBA n 0 initState rfl
  refine ⟨h1, ?_, by simpa [runCycles, initState] using h3⟩
  simpa [runCycles, initState] using h2

/-- C2 (counterexample): a single exchange whose record_ticker call raises
and whose product price fetch would succeed. The claim predicts the price
is still fetched and stored in that cycle; in the code the exception aborts
the whole cycle before any fetch: zero fetch attempts, empty store. -/
theorem C2_counterexample :
    (runCycles envAllOk cfgT 1 initState).committed = [] ∧
    (runCycles envAllOk cfgT 1 initState).attempted = 0 := by
  decide

/-- C2 (amended): a record_ticker failure raises out of the processing of
that exchange: no product of that exchange is fetched or written in that
cycle, the state is untouched, and (when the exchange heads the registered
list) the exception reaches the cycle-level catch-all, aborting the cycle;
the loop resumes with the next cycle. -/
theorem C2_ticker_failure_aborts_exchange (env : Env) (cfg : Config) (c : ℕ)
    (ex : ExchangeClient) (st : LoopState) (e : String)
    (rest : List ExchangeClient) (h : ex.record_ticker c = .error e) :
    runExchange env cfg c ex st = (st, true) ∧
    (cfg.exchanges = ex :: rest → cycleAborted env cfg c st = true) := by
  have h1 : ∀ s : LoopState, runExchange env cfg c ex s = (s, true) := by
    intro s; simp [runExchange, h]
  refine ⟨h1 st, fun hx => ?_⟩
  simp only [cycleAborted, cycleBody, hx, runExchanges, h1]

/-- C2 witness: the amended statement at the concrete ticker-failing
configuration. -/
theorem C2_ticker_failure_aborts_exchange_witness :
    runExchange envAllOk cfgT 0 exTickerFail initState = (initState, true) ∧
    cycleAborted envAllOk cfgT 0 initState = true := by
  have h := C2_ticker_failure_aborts_exchange envAllOk cfgT 0 exTickerFail
    initState "es unreachable" [] rfl
  exact ⟨h.1, h.2 rfl⟩

/-- C3 (confirmed): for a successfully fetched and committed observation,
the alert list grows by exactly the one qualifying event when
price > threshold (strict), and by nothing otherwise. -/
theorem C3_strict_threshold_alert (env : Env) (cfg : Config) (c : ℕ)
    (ex : ExchangeClient) (p : String) (st : LoopState) (price : ℚ)
    (hg : ex.get_price c p = .ok price)
    (hc : env.commitOk st.commitCount = true) :
    (processProduct env cfg c ex p st).1.alerts =
      st.alerts ++
        (if cfg.threshold < price then
           [{ product := p, exchange := ex.exchange, price := price,
              threshold := cfg.threshold }]
         else []) := by
  rw [processProduct_ok hg hc]

/-- C3 witness: with threshold 50000, price 5000001/100 (= 50000.01)
triggers exactly one AlertEvent and price exactly 50000 triggers none. -/
theorem C3_strict_threshold_alert_witness :
    (processProduct envAllOk cfgThr 0 (exOk "E" "P" (mkRat 5000001 100)) "P"
        initState).1.alerts =
      [{ product := "P", exchange := "E", price := mkRat 5000001 100,
         threshold := 50000 }] ∧
    (processProduct envAllOk cfgThr 0 (exOk "E" "P" 50000) "P"
        initState).1.alerts = [] := by
  constructor
  · have h := C3_strict_threshold_alert envAllOk cfgThr 0
      (exOk "E" "P" (mkRat 5000001 100)) "P" initState (mkRat 5000001 100)
      rfl rfl
    rw [h]
    decide
  · have h := C3_strict_threshold_alert envAllOk cfgThr 0
      (exOk "E" "P" 50000) "P" initState 50000 rfl rfl
    rw [h]
    decide

/-- C4 (confirmed): when the commit for a fetched price raises, no
AlertEvent is produced for that fetch (whatever the price), and the
exception propagates out of the product step. -/
theorem C4_store_failure_skips_alert (env : Env) (cfg : Config) (c : ℕ)
    (ex : ExchangeClient) (p : String) (st : LoopState) (price : ℚ)
    (hg : ex.get_price c p = .ok price)
    (hc : env.commitOk st.commitCount = false) :
    (processProduct env cfg c ex p st).1.alerts = st.alerts ∧
    (processProduct env cfg c ex p st).2 = true := by
  rw [processProduct_commit_fail hg hc]
  exact ⟨rfl, rfl⟩

/-- C4 witness: price 60000 exceeds threshold 50000, yet with a failing
commit no alert is produced. -/
theorem C4_store_failure_skips_alert_witness :
    (50000 : ℚ) < 60000 ∧
    (processProduct envNoCommit cfgThr 0 (exOk "E" "P" 60000) "P"
        initState).1.alerts = [] := by
  refine ⟨by decide, ?_⟩
  exact (C4_store_failure_skips_alert envNoCommit cfgThr 0
    (exOk "E" "P" 60000) "P" initState 60000 rfl rfl).1

/-- C5 (counterexample): one exchange, one product, fetch succeeds but the
commit raises: after 1 cycle the store holds 0 observations while 1 fetch
returned success, refuting the claimed per-cycle equality. -/
theorem C5_counterexample :
    (runCycles envNoCommit cfgE 1 initState).fetchSuccesses = 1 ∧
    (runCycles envNoCommit cfgE 1 initState).committed.length = 0 ∧
    (runCycles envNoCommit cfgE 1 initState).committed.length ≠
      (runCycles envNoCommit cfgE 1 initState).fetchSuccesses := by
  decide

/-- C5 (amended): across any run, the number of Observations written never
exceeds the number of fetches that returned success (every Observation
comes from exactly one successful fetch; a failed fetch produces zero
Observations), which never exceeds the number of (exchange, product) pairs
attempted; and under the stated per-cycle reading the equality between
written Observations and successful fetches holds whenever every commit
succeeds. A failed commit loses its observation (the transaction is rolled
back and the pending row expunged), which refutes the unconditional
equality. -/
theorem C5_observation_accounting (env : Env) (cfg : Config) (n : ℕ) :
    (runCycles env cfg n initState).committed.length ≤
      (runCycles env cfg n initState).fetchSuccesses ∧
    (runCycles env cfg n initState).fetchSuccesses ≤
      (runCycles env cfg n initState).attempted ∧
    ((∀ k, env.commitOk k = true) →
      (runCycles env cfg n initState).committed.length =
        (runCycles env cfg n initState).fetchSuccesses) := by
  obtain ⟨h1, h2⟩ := runCyclesFrom_obsInvariant env cfg 0 n initState
    ⟨Nat.le_refl 0, Nat.le_refl 0⟩
  simp only [runCycles]
  exact ⟨by omega, h2, fun hok =>
    (runCyclesFrom_allOk env cfg 0 n initState hok ⟨rfl, rfl⟩).2⟩

/-- C5 witness: the amended accounting at the concrete §8 scenario with all
commits succeeding. -/
theorem C5_observation_accounting_witness :
    (runCycles envAllOk cfg9 3 initState).committed.length =
      (runCycles envAllOk cfg9 3 initState).fetchSuccesses :=
  (C5_observation_accounting envAllOk cfg9 3).2.2 (fun _ => rfl)

/-- C6 (confirmed): provisioning is idempotent. When the backing store can
create the index, ensure succeeds, a second ensure on the resulting state
returns the same state with no error and creates nothing, and exactly one
index entry is created when the index was absent (none when present). -/
theorem C6_ensure_idempotent (canCreate : String → Bool) (s : List String)
    (idx : String) (hc : canCreate idx = true) :
    ∃ s', ensureIdx canCreate s idx = .ok s' ∧
      ensureIdx canCreate s' idx = .ok s' ∧
      (s.contains idx = false → s' = idx :: s) ∧
      (s.contains idx = true → s' = s) := by
  by_cases h : s.contains idx = true
  · have hIdx : indexExists s idx = true := h
    refine ⟨s, ?_, ?_, ?_, fun _ => rfl⟩
    · simp [ensureIdx, hIdx]
    · simp [ensureIdx, hIdx]
    · intro hb; rw [h] at hb; cases hb
  · have hb : s.contains idx = false := by simpa using h
    have hIdx : indexExists s idx = false := hb
    have hIdx2 : indexExists (idx :: s) idx = true := by
      simp [indexExists]
    have hmem : idx ∉ s := by simpa using hb
    have hcr : createIndex canCreate s idx = .ok (idx :: s) := by
      simp [createIndex, hc, hb, hmem]
    refine ⟨idx :: s, ?_, ?_, fun _ => rfl, ?_⟩
    · simp [ensureIdx, hIdx, hcr]
    · simp [ensureIdx, hIdx2]
    · intro hb2; rw [hb] at hb2; cases hb2

/-- C6 witness: the idempotence statement at a fresh index id on an empty
store. -/
theorem C6_ensure_idempotent_witness :
    ∃ s', ensureIdx (fun _ => true) [] "idx_P1" = .ok s' ∧
      ensureIdx (fun _ => true) s' "idx_P1" = .ok s' ∧
      (([] : List String).contains "idx_P1" = false → s' = ["idx_P1"]) ∧
      (([] : List String).contains "idx_P1" = true → s' = []) :=
  C6_ensure_idempotent (fun _ => true) [] "idx_P1" rfl

/-- C7 (confirmed): if startup provisioning fails with an error, main
propagates exactly that error and never returns a loop state: no cycle
runs and no Observation is ever written. -/
theorem C7_provisioning_fatal (canCreate : String → Bool) (env : Env)
    (cfg : Config) (n : ℕ) (e : String)
    (h : provisionAll canCreate cfg.exchanges [] = .error e) :
    runMain canCreate env cfg n = .error e ∧
    ∀ st, runMain canCreate env cfg n ≠ .ok st := by
  have hm : runMain canCreate env cfg n = .error e := by
    simp [runMain, h]
  refine ⟨hm, fun st hst => ?_⟩
  rw [hm] at hst
  exact Except.noConfusion hst

/-- C7 witness: with index creation always failing (connectivity), main on
the §8 configuration fails fatally for any number of cycles. -/
theorem C7_provisioning_fatal_witness :
    runMain (fun _ => false) envAllOk cfg9 5 = .error "ConnectionError" :=
  (C7_provisioning_fatal (fun _ => false) envAllOk cfg9 5
    "ConnectionError" rfl).1

/-- C8 (confirmed): when a cycle aborts into the catch-all handler, the
idle time before the next collection starts is exactly
refresh + 10 — the fixed 10-unit cooldown on top of, and hence strictly
longer than, the normal refresh interval. -/
theorem C8_systemic_error_cooldown (env : Env) (cfg : Config) (c : ℕ)
    (st : LoopState) (h : cycleAborted env cfg c st = true) :
    interCyclePause env cfg c st = cfg.refresh + 10 ∧
    cfg.refresh < interCyclePause env cfg c st := by
  have hc := runCycle_clock env cfg c st
  rw [h] at hc
  simp only [if_true] at hc
  constructor <;> simp only [interCyclePause, hc] <;> omega

/-- C8 witness: the aborting configuration pauses 11 = 1 + 10 time units
between cycles, strictly more than the refresh interval 1. -/
theorem C8_systemic_error_cooldown_witness :
    interCyclePause envAllOk cfgAB 0 initState = 11 := by
  have h := C8_systemic_error_cooldown envAllOk cfgAB 0 initState rfl
  exact h.1

/-- C9 (confirmed): the §8 scenario. Two exchanges with one product each,
prices 100 and 60000, threshold 50000: after 3 cycles the store holds
exactly 6 observations, 3 per exchange, and exactly 3 alerts were raised,
all referencing exchange 2, one per cycle with no suppression. -/
theorem C9_two_exchange_scenario :
    (runCycles envAllOk cfg9 3 initState).committed.length = 6 ∧
    ((runCycles envAllOk cfg9 3 initState).committed.countP
      (fun o => o.exchange == "Exchange1")) = 3 ∧
    ((runCycles envAllOk cfg9 3 initState).committed.countP
      (fun o => o.exchange == "Exchange2")) = 3 ∧
    (runCycles envAllOk cfg9 3 initState).alerts.map AlertEvent.exchange
      = ["Exchange2", "Exchange2", "Exchange2"] := by
  decide

/-- C10 (counterexample): one exchange, one product; the first commit of
the run fails and the next would succeed. After cycle 1 the fetched
observation is in neither the session (pending is empty: the failed commit
rolled the transaction back and expunged the row) nor the store; the next
successful commit (cycle 2) persists only its own observation — the
earlier one is gone, refuting both that the observation remains pending
and that the next successful commit also persists it. -/
theorem C10_counterexample :
    (runCycles envFirstCommitFails cfgE 1 initState).fetchSuccesses = 1 ∧
    (runCycles envFirstCommitFails cfgE 1 initState).pending = [] ∧
    (runCycles envFirstCommitFails cfgE 1 initState).committed = [] ∧
    (runCycles envFirstCommitFails cfgE 2 initState).committed
      = [{ exchange := "E", product := "P", price := 100, observedAt := 12 }] := by
  decide

/-- C10 (amended): a failed commit does leave the database unchanged for
that write — the fetched observation is rolled back and expunged from the
session, never persisted — and, because the source never calls rollback,
every later commit of a real run also raises (PendingRollbackError: a
commit can succeed only if all earlier commits succeeded); under that
cascade, once the first commit has failed no Observation is ever written
in any number of cycles. -/
theorem C10_failed_commit_rolls_back (env : Env) (cfg : Config) (c : ℕ)
    (ex : ExchangeClient) (p : String) (st : LoopState) (price : ℚ) (n : ℕ)
    (hg : ex.get_price c p = .ok price)
    (hc : env.commitOk st.commitCount = false) :
    ((processProduct env cfg c ex p st).1.committed = st.committed ∧
     (processProduct env cfg c ex p st).1.pending = [] ∧
     (processProduct env cfg c ex p st).2 = true) ∧
    ((∀ k j, env.commitOk k = true → j ≤ k → env.commitOk j = true) →
      env.commitOk 0 = false →
      (runCycles env cfg n initState).committed = []) := by
  constructor
  · rw [processProduct_commit_fail hg hc]
    exact ⟨rfl, rfl, rfl⟩
  · intro hpr h0
    have hall : ∀ k, env.commitOk k = false := by
      intro k
      cases hk : env.commitOk k with
      | false => rfl
      | true =>
        have h1 := hpr k 0 hk (Nat.zero_le k)
        rw [h0] at h1
        exact Bool.noConfusion h1
    simp only [runCycles]
    exact runCyclesFrom_committed_const env cfg 0 n initState hall

/-- C10 witness: the amended statement at a concrete always-failing-commit
run — the fetched row is expunged and the store stays empty across cycles. -/
theorem C10_failed_commit_rolls_back_witness :
    (processProduct envNoCommit cfgE 0 (exOk "E" "P" 100) "P"
        initState).1.pending = [] ∧
    (runCycles envNoCommit cfgE 2 initState).committed = [] := by
  have h := C10_failed_commit_rolls_back envNoCommit cfgE 0 (exOk "E" "P" 100)
    "P" initState 100 2 rfl rfl
  exact ⟨h.1.2.1, h.2 (fun k j hk _ => Bool.noConfusion hk) rfl⟩

end CryptoTracker
